import Mathlib

/-!
# Verification of the ACS autoscaler's capacity-reconciliation core

Shallow embedding of `src/autoscaler/container_service.py` and the outer
control loop of `src/main.py`.  Python dictionaries keyed by pool name are
embedded as association lists (`PMap`), Python integers as `Int`, and every
mutating provider call (`deployments.deploy`, `reclaim_unschedulable_nodes`)
is recorded as an element of an explicit call list, in issue order.
-/

/-- A Python dict with string keys and integer values, as an association
list with unique keys (lookup finds the first matching key; insertion
overwrites in place). -/
abbrev PMap := List (String × Int)

/-- Dict lookup: `m[k]`, `none` standing for a `KeyError`. -/
def dlookup (m : PMap) (k : String) : Option Int :=
  match m with
  | [] => none
  | (k₂, v) :: rest => if k = k₂ then some v else dlookup rest k

/-- Dict write `m[k] = v`: overwrite the first binding of `k` in place, or
append a fresh binding at the end (Python dicts keep insertion order). -/
def dinsert (m : PMap) (k : String) (v : Int) : PMap :=
  match m with
  | [] => [(k, v)]
  | (k₂, v₂) :: rest => if k = k₂ then (k, v) :: rest else (k₂, v₂) :: dinsert rest k v

/-- Modelled from the spec: an agent pool's observable attributes.  The
`AgentPool` class itself lives in `autoscaler/agent_pool.py`, outside the
sources at hand; per the spec's data model it carries a `name`, an
`actual_capacity` (count of member nodes) and a `max_size` ceiling. -/
structure AgentPool where
  name : String
  actual_capacity : Int
  max_size : Int
deriving DecidableEq, Repr

/-- The fixed-topology container-service instance
(`self.instance`): the list of agent-pool profile counts and the
service-principal profile (present or nulled out). -/
structure AcsInstance where
  agent_pool_profiles : List Int
  service_principal_profile : Option Unit
deriving DecidableEq, Repr

/-- One resource of an ARM template, as far as
`prepare_template_for_scale_up` inspects it: its `type` string and its
`dependsOn` list. -/
structure ArmResource where
  type : String
  dependsOn : List String
deriving DecidableEq, Repr

/-- The ARM template: its `resources` array. -/
structure ArmTemplate where
  resources : List ArmResource
deriving DecidableEq, Repr

/-- The provider-side operation performed under the Deployment
Serializer's exclusion. -/
inductive ProviderOp where
  /-- `acs_client.create_or_update` with the mutated instance (fixed topology). -/
  | createOrUpdate (inst : AcsInstance)
  /-- `smc.deployments.create_or_update` with the template and parameters (templated topology). -/
  | armDeploy (template : ArmTemplate) (parameters : PMap)
  /-- `delete_resources_for_node` for the named node. -/
  | teardown (node : String)
deriving DecidableEq, Repr

/-- A mutating call issued by the reconciliation pass, in issue order. -/
inductive Call where
  /-- `pool.reclaim_unschedulable_nodes(new_size)` (note: the unclamped size). -/
  | reclaim (pool : String) (newSize : Int)
  /-- `self.deployments.deploy(operation, snapshot)`: modelled from the spec,
  the Deployment Serializer runs the operation synchronously (one at a time)
  with the given pool-size snapshot. -/
  | deploy (op : ProviderOp) (snapshot : PMap)
deriving DecidableEq, Repr

/-- The mutable state of a `ContainerService` object that the embedded
operations read and write. -/
structure ContainerServiceState where
  resource_group_name : String
  agent_pools : List AgentPool
  is_acs_engine : Bool
  /-- `self.instance` (fixed topology only; dead field otherwise). -/
  inst : AcsInstance
  /-- `self.desired_agent_pool_capacity`, unset before the first resize. -/
  desired_agent_pool_capacity : Option Int
  /-- `self.arm_template` (templated topology only). -/
  arm_template : ArmTemplate
  /-- `self.arm_parameters`; parameter values `{'value': n}` are embedded as `n`. -/
  arm_parameters : PMap
deriving DecidableEq, Repr

/-- Errors a reconciliation entry point can raise. -/
inductive ScaleErr where
  /-- A Python `KeyError` / `IndexError` on a malformed input. -/
  | keyError
  /-- `Exception("Tried to scale down pool ... to less than 1 agent")`. -/
  | invalidScaleDown (pool : String)
deriving DecidableEq, Repr

/-- The result of one `scale_pools` pass: the final object state, the
clamped `new_pool_sizes` dict, and the mutating calls issued in order. -/
structure ScaleOutcome where
  state : ContainerServiceState
  sizes : PMap
  calls : List Call
deriving DecidableEq, Repr

/-- `set_desired_acs_agent_pool_capacity`: sets
`self.instance.agent_pool_profiles[0].count` (a `KeyError`-style failure if
the profile list is empty), nulls out `self.instance.service_principal_profile`,
and records the desired capacity.  Returns the mutated instance, which is
then passed to `create_or_update`. -/
def set_desired_acs_agent_pool_capacity (inst : AcsInstance)
    (new_desired_capacity : Int) : Option AcsInstance :=
  match inst.agent_pool_profiles with
  | [] => none
  | _ :: rest =>
    some { agent_pool_profiles := new_desired_capacity :: rest
           service_principal_profile := none }

/-- The per-pool loop of `scale_pools` (lines 116–129): clamps each pool's
entry of `new_pool_sizes` in place, tracks `has_changes`, and (when not a
dry run) reclaims unschedulable nodes on growth.  Returns the mutated dict,
the `has_changes` flag and the reclaim calls issued, or `none` on a
`KeyError`. -/
def scalePoolsLoop (pools : List AgentPool) (new_pool_sizes : PMap)
    (dry_run : Bool) (has_changes : Bool) (calls : List Call) :
    Option (PMap × Bool × List Call) :=
  match pools with
  | [] => some (new_pool_sizes, has_changes, calls)
  | pool :: rest =>
    match dlookup new_pool_sizes pool.name with
    | none => none
    | some new_size =>
      let m := dinsert new_pool_sizes pool.name (min pool.max_size new_size)
      if min pool.max_size new_size = pool.actual_capacity then
        scalePoolsLoop rest m dry_run has_changes calls
      else
        let calls := if !dry_run && new_size > pool.actual_capacity
          then calls ++ [Call.reclaim pool.name new_size] else calls
        scalePoolsLoop rest m dry_run true calls

/-- The fixed-topology deploy loop of `scale_pools` (lines 133–134): one
serialized `set_desired_acs_agent_pool_capacity` call per pool of
`self.agent_pools`, each mutating `self.instance` and passing the shared
`new_pool_sizes` dict as the deployment snapshot. -/
def fixedDeployLoop (pools : List AgentPool) (cs : ContainerServiceState)
    (new_pool_sizes : PMap) : Option (ContainerServiceState × List Call) :=
  match pools with
  | [] => some (cs, [])
  | pool :: rest =>
    match dlookup new_pool_sizes pool.name with
    | none => none
    | some cap =>
      match set_desired_acs_agent_pool_capacity cs.inst cap with
      | none => none
      | some inst₂ =>
        let cs₂ := { cs with inst := inst₂, desired_agent_pool_capacity := some cap }
        match fixedDeployLoop rest cs₂ new_pool_sizes with
        | none => none
        | some (cs₃, calls) =>
          some (cs₃, Call.deploy (ProviderOp.createOrUpdate inst₂) new_pool_sizes :: calls)

/-- The type string of a network-security-group resource. -/
def nsgTypeName : String := "Microsoft.Network/networkSecurityGroups"

/-- The type string of a virtual-network resource. -/
def vnetTypeName : String := "Microsoft.Network/virtualNetworks"

/-- The literal dependency edge `prepare_template_for_scale_up` removes
(apostrophes written as `\x27`). -/
def nsgDependency : String :=
  "[concat(\x27Microsoft.Network/networkSecurityGroups/\x27, variables(\x27nsgName\x27))]"

/-- The inner `for j ...: if deps[j] == ...: deps.pop(j); break` of
`prepare_template_for_scale_up`: remove the first occurrence of `target`. -/
def removeFirstDep (deps : List String) (target : String) : List String :=
  match deps with
  | [] => []
  | d :: rest => if d = target then rest else d :: removeFirstDep rest target

/-- Python `list.pop(i)` (negative `i` counts from the end); `none` is an
`IndexError`. -/
def pyPop (xs : List ArmResource) (i : Int) : Option (List ArmResource) :=
  let n : Int := xs.length
  let j := if i < 0 then i + n else i
  if 0 ≤ j ∧ j < n then some (xs.eraseIdx j.toNat) else none

/-- The index scan of `prepare_template_for_scale_up` (lines 175–184):
walks the resource array once, remembering the index of the (last)
network-security-group resource — `-1` when none is seen — and dropping the
security-group dependency edge from every virtual-network resource's
`dependsOn` list. -/
def prepScan (resources : List ArmResource) (i : Int) (nsg_resource_index : Int) :
    List ArmResource × Int :=
  match resources with
  | [] => ([], nsg_resource_index)
  | r :: rest =>
    let idx := if r.type = nsgTypeName then i else nsg_resource_index
    let r₂ := if r.type = vnetTypeName
      then { r with dependsOn := removeFirstDep r.dependsOn nsgDependency } else r
    let (rest₂, finalIdx) := prepScan rest (i + 1) idx
    (r₂ :: rest₂, finalIdx)

/-- `prepare_template_for_scale_up`: scan the resources, then
`resources.pop(nsg_resource_index)` — which, when no security group was
found, pops index `-1`, i.e. the *last* resource.  `none` is the
`IndexError` on an empty resource array. -/
def prepare_template_for_scale_up (template : ArmTemplate) : Option ArmTemplate :=
  let (resources, nsg_resource_index) := prepScan template.resources 0 (-1)
  match pyPop resources nsg_resource_index with
  | none => none
  | some rs => some { resources := rs }

/-- The parameter-writing loop of `deploy_pools` (lines 158–161): for each
pool, write `<name>Offset = actual_capacity` when scaling up a pool that is
actually growing, and always write `<name>Count = new_pool_sizes[name]`. -/
def writeParams (pools : List AgentPool) (new_pool_sizes : PMap)
    (params : PMap) (is_scale_up : Bool) : Option PMap :=
  match pools with
  | [] => some params
  | pool :: rest =>
    match dlookup new_pool_sizes pool.name with
    | none => none
    | some target =>
      let params := if is_scale_up && pool.actual_capacity < target
        then dinsert params (pool.name ++ "Offset") pool.actual_capacity else params
      let params := dinsert params (pool.name ++ "Count") target
      writeParams rest new_pool_sizes params is_scale_up

/-- `deploy_pools`: writes the Count/Offset parameters into
`self.arm_parameters`, on scale-up rewrites `self.arm_template` in place via
`prepare_template_for_scale_up`, and issues one combined
`create_or_update` deployment with the stored template and parameters.
Returns the mutated object state together with the provider operation. -/
def deploy_pools (cs : ContainerServiceState) (new_pool_sizes : PMap)
    (is_scale_up : Bool) : Option (ContainerServiceState × ProviderOp) :=
  match writeParams cs.agent_pools new_pool_sizes cs.arm_parameters is_scale_up with
  | none => none
  | some params =>
    match (if is_scale_up then prepare_template_for_scale_up cs.arm_template
           else some cs.arm_template) with
    | none => none
    | some template =>
      some ({ cs with arm_parameters := params, arm_template := template },
            ProviderOp.armDeploy template params)

/-- `scale_pools` (lines 115–136): clamp every pool's requested size, then,
unless this is a dry run or nothing changed, either issue one serialized
direct resize per pool (fixed topology) or one combined redeploy
(templated topology). -/
def scale_pools (cs : ContainerServiceState) (new_pool_sizes : PMap)
    (dry_run : Bool) (is_scale_up : Bool) : Option ScaleOutcome :=
  match scalePoolsLoop cs.agent_pools new_pool_sizes dry_run false [] with
  | none => none
  | some (m, has_changes, reclaims) =>
    if !dry_run && has_changes then
      if !cs.is_acs_engine then
        match fixedDeployLoop cs.agent_pools cs m with
        | none => none
        | some (cs₂, deploys) =>
          some { state := cs₂, sizes := m, calls := reclaims ++ deploys }
      else
        match deploy_pools cs m is_scale_up with
        | none => none
        | some (cs₂, op) =>
          some { state := cs₂, sizes := m, calls := reclaims ++ [Call.deploy op m] }
    else
      some { state := cs, sizes := m, calls := reclaims }

/-- The per-pool validation loop of `scale_down` (lines 52–59): compute
`actual_capacity - trim_map[name]` for every pool, raising as soon as a
pool would drop to zero or below. -/
def scaleDownLoop (pools : List AgentPool) (trim_map : PMap)
    (new_pool_sizes : PMap) : Except ScaleErr PMap :=
  match pools with
  | [] => .ok new_pool_sizes
  | pool :: rest =>
    match dlookup trim_map pool.name with
    | none => .error .keyError
    | some trim =>
      let new_agent_count := pool.actual_capacity - trim
      if new_agent_count ≤ 0 then .error (.invalidScaleDown pool.name)
      else scaleDownLoop rest trim_map (dinsert new_pool_sizes pool.name new_agent_count)

/-- `scale_down`: validate the trim map against every pool, then run
`scale_pools` with `is_scale_up = False`. -/
def scale_down (cs : ContainerServiceState) (trim_map : PMap) (dry_run : Bool) :
    Except ScaleErr ScaleOutcome :=
  match scaleDownLoop cs.agent_pools trim_map [] with
  | .error e => .error e
  | .ok new_pool_sizes =>
    match scale_pools cs new_pool_sizes dry_run false with
    | none => .error .keyError
    | some out => .ok out

/-- `delete_node` (lines 106–112).  The Python `for pool in self.agent_pools`
loop reuses (and therefore shadows) the `pool` *parameter*: after the loop
the name `pool` is bound to the last agent pool (or still to the parameter
when the pool list is empty), and it is that pool whose snapshot entry is
decremented before the teardown is submitted through the serializer. -/
def delete_node (cs : ContainerServiceState) (pool : AgentPool) (node : String) : Call :=
  let pool_sizes := cs.agent_pools.foldl (fun m p => dinsert m p.name p.actual_capacity) []
  let lastPool := cs.agent_pools.getLast?.getD pool
  let pool_sizes := dinsert pool_sizes lastPool.name (lastPool.actual_capacity - 1)
  Call.deploy (ProviderOp.teardown node) pool_sizes

/-- One step of the node-teardown sequence, in the order
`delete_resources_for_node` performs it. -/
inductive TeardownStep where
  /-- Reading `vm_details.storage_profile.os_disk.vhd.uri` and parsing out
  the storage account, container and blob names. -/
  | resolveBlobLocation (account container blob : String)
  /-- `resources.delete(..., 'virtualMachines', node.name, ...)`. -/
  | deleteVM (name : String)
  /-- `delete_vm_op.wait()`. -/
  | waitForVMDeletion
  /-- `resources.delete(..., 'networkInterfaces', nic_name, ...)`. -/
  | deleteNIC (name : String)
  /-- `delete_nic_op.wait()`. -/
  | waitForNICDeletion
  /-- `storage_accounts.list_keys(resource_group, account_name)`. -/
  | listStorageKeys (account : String)
  /-- `block_blob_service.delete_blob(container_name, blob_name)`. -/
  | deleteBlob (account container blob : String)
deriving DecidableEq, Repr

/-- Helper for `pySplit`: walk the characters, cutting at every separator
(the accumulator holds the current field, reversed). -/
def pySplitAux (sep : Char) : List Char → List Char → List String
  | [], acc => [String.mk acc.reverse]
  | c :: rest, acc =>
    if c = sep then String.mk acc.reverse :: pySplitAux sep rest []
    else pySplitAux sep rest (c :: acc)

/-- Python's `str.split` with a one-character separator (the only form the
source uses): `"a-b-".split('-') == ['a', 'b', '']`. -/
def pySplit (s : String) (sep : Char) : List String :=
  pySplitAux sep s.data []

/-- `delete_resources_for_node` (lines 63–104), as the ordered list of
steps it performs, given the node's OS-disk VHD URI (read from the live
instance metadata) and the node's name.  The second component is `true`
when the sequence ran to completion; an out-of-range string index
(Python `IndexError`) stops the sequence with the steps already taken. -/
def delete_resources_for_node (vhdUri : String) (nodeName : String) :
    List TeardownStep × Bool :=
  let storage_infos := pySplit vhdUri '/'
  match storage_infos.get? 2, storage_infos.get? 3, storage_infos.get? 4 with
  | some host, some container_name, some blob_name =>
    match (pySplit host '.').get? 0 with
    | some account_name =>
      let prefixSteps :=
        [TeardownStep.resolveBlobLocation account_name container_name blob_name,
         TeardownStep.deleteVM nodeName, TeardownStep.waitForVMDeletion]
      let name_parts := pySplit nodeName '-'
      match name_parts.get? 0, name_parts.get? 1, name_parts.get? 2, name_parts.get? 3 with
      | some p₀, some p₁, some p₂, some p₃ =>
        let nic_name := p₀ ++ "-" ++ p₁ ++ "-" ++ p₂ ++ "-nic-" ++ p₃
        (prefixSteps ++
          [TeardownStep.deleteNIC nic_name, TeardownStep.waitForNICDeletion,
           TeardownStep.listStorageKeys account_name,
           TeardownStep.deleteBlob account_name container_name blob_name], true)
      | _, _, _, _ => (prefixSteps, false)
    | none => ([], false)
  | _, _, _ => ([], false)

/-- One iteration of the outer control loop of `main` (lines 120–128):
given the base `--sleep` value, the current `backoff`, and whether the pass
scaled, return the duration slept this iteration and the new `backoff`. -/
def backoffStep (sleep : Int) (backoff : Int) (scaled : Bool) : Int × Int :=
  if scaled then (sleep, sleep)
  else (backoff * 2, backoff * 2)

/-- The `backoff` value after a sequence of iterations of the outer loop
(entered with `backoff = sleep`, per line 119). -/
def backoffIterate (sleep : Int) (backoff : Int) : List Bool → Int
  | [] => backoff
  | scaled :: rest => backoffIterate sleep (backoffStep sleep backoff scaled).2 rest

/-- Is this call a serialized provider deployment (as opposed to a node
reclaim)? -/
def isDeployCall : Call → Bool
  | .deploy _ _ => true
  | .reclaim _ _ => false

/-! ## Dictionary lemmas -/

theorem dlookup_dinsert_self (m : PMap) (k : String) (v : Int) :
    dlookup (dinsert m k v) k = some v := by
  induction m with
  | nil => simp [dinsert, dlookup]
  | cons kv rest ih =>
    obtain ⟨k₂, v₂⟩ := kv
    by_cases h : k = k₂
    · simp [dinsert, dlookup, h]
    · simp [dinsert, dlookup, h, ih]

theorem dlookup_dinsert_ne (m : PMap) (k k₂ : String) (v : Int) (h : k ≠ k₂) :
    dlookup (dinsert m k₂ v) k = dlookup m k := by
  induction m with
  | nil => simp [dinsert, dlookup, h]
  | cons kv rest ih =>
    obtain ⟨k₃, v₃⟩ := kv
    by_cases h₂ : k₂ = k₃
    · subst h₂
      simp [dinsert, dlookup, h]
    · by_cases h₃ : k = k₃ <;> simp [dinsert, dlookup, h₂, h₃, ih]

/-! ## Lemmas about the clamping loop of `scale_pools` -/

theorem scalePoolsLoop_preserves (pools : List AgentPool) :
    ∀ m d hc cls m₂ hc₂ cls₂, scalePoolsLoop pools m d hc cls = some (m₂, hc₂, cls₂) →
    ∀ k, k ∉ pools.map AgentPool.name → dlookup m₂ k = dlookup m k := by
  induction pools with
  | nil =>
    intro m d hc cls m₂ hc₂ cls₂ h k _
    simp only [scalePoolsLoop, Option.some.injEq] at h
    obtain ⟨rfl, -, -⟩ := h
    rfl
  | cons p rest ih =>
    intro m d hc cls m₂ hc₂ cls₂ h k hk
    simp only [List.map_cons, List.mem_cons, not_or] at hk
    obtain ⟨hk₁, hk₂⟩ := hk
    simp only [scalePoolsLoop] at h
    cases hl : dlookup m p.name with
    | none => rw [hl] at h; cases h
    | some ns =>
      rw [hl] at h
      simp only at h
      have hpre : dlookup (dinsert m p.name (min p.max_size ns)) k = dlookup m k :=
        dlookup_dinsert_ne _ _ _ _ hk₁
      split at h
      · rw [ih _ _ _ _ _ _ _ h k hk₂, hpre]
      · rw [ih _ _ _ _ _ _ _ h k hk₂, hpre]

theorem scalePoolsLoop_sizes (pools : List AgentPool) :
    ∀ m d hc cls m₂ hc₂ cls₂, (pools.map AgentPool.name).Nodup →
    scalePoolsLoop pools m d hc cls = some (m₂, hc₂, cls₂) →
    ∀ p ∈ pools, ∀ c, dlookup m p.name = some c →
      dlookup m₂ p.name = some (min p.max_size c) := by
  induction pools with
  | nil => intro m d hc cls m₂ hc₂ cls₂ _ _ p hp; cases hp
  | cons p₀ rest ih =>
    intro m d hc cls m₂ hc₂ cls₂ hnd h p hp c hc₀
    simp only [List.map_cons, List.nodup_cons] at hnd
    obtain ⟨hn₁, hn₂⟩ := hnd
    simp only [scalePoolsLoop] at h
    cases hl : dlookup m p₀.name with
    | none => rw [hl] at h; cases h
    | some ns =>
      rw [hl] at h
      simp only at h
      rcases List.mem_cons.mp hp with rfl | hp₂
      · -- the head pool: its entry is written here and never touched again
        rw [hc₀] at hl
        cases hl
        have hkeep : dlookup m₂ p.name =
            dlookup (dinsert m p.name (min p.max_size c)) p.name := by
          split at h
          · exact scalePoolsLoop_preserves _ _ _ _ _ _ _ _ h p.name hn₁
          · exact scalePoolsLoop_preserves _ _ _ _ _ _ _ _ h p.name hn₁
        rw [hkeep, dlookup_dinsert_self]
      · -- a later pool: the head's write does not touch its entry
        have hne : p.name ≠ p₀.name := by
          intro he
          exact hn₁ (he ▸ List.mem_map_of_mem AgentPool.name hp₂)
        have hc₂ : dlookup (dinsert m p₀.name (min p₀.max_size ns)) p.name = some c := by
          rw [dlookup_dinsert_ne _ _ _ _ hne, hc₀]
        split at h
        · exact ih _ _ _ _ _ _ _ hn₂ h p hp₂ c hc₂
        · exact ih _ _ _ _ _ _ _ hn₂ h p hp₂ c hc₂

theorem scalePoolsLoop_noop (pools : List AgentPool) :
    ∀ m d hc cls m₂ hc₂ cls₂, (pools.map AgentPool.name).Nodup →
    (∀ p ∈ pools, ∀ c, dlookup m p.name = some c → min p.max_size c = p.actual_capacity) →
    scalePoolsLoop pools m d hc cls = some (m₂, hc₂, cls₂) →
    hc₂ = hc ∧ cls₂ = cls := by
  induction pools with
  | nil =>
    intro m d hc cls m₂ hc₂ cls₂ _ _ h
    simp only [scalePoolsLoop, Option.some.injEq] at h
    obtain ⟨-, rfl, rfl⟩ := h
    exact ⟨rfl, rfl⟩
  | cons p₀ rest ih =>
    intro m d hc cls m₂ hc₂ cls₂ hnd hno h
    simp only [List.map_cons, List.nodup_cons] at hnd
    obtain ⟨hn₁, hn₂⟩ := hnd
    simp only [scalePoolsLoop] at h
    cases hl : dlookup m p₀.name with
    | none => rw [hl] at h; cases h
    | some ns =>
      rw [hl] at h
      simp only at h
      have heq : min p₀.max_size ns = p₀.actual_capacity :=
        hno p₀ (List.mem_cons_self _ _) ns hl
      rw [if_pos heq] at h
      refine ih _ _ _ _ _ _ _ hn₂ ?_ h
      intro p hp c hcp
      have hne : p.name ≠ p₀.name := by
        intro he
        exact hn₁ (he ▸ List.mem_map_of_mem AgentPool.name hp)
      refine hno p (List.mem_cons_of_mem _ hp) c ?_
      rw [← hcp, dlookup_dinsert_ne _ _ _ _ hne]

theorem scalePoolsLoop_dry_run (pools : List AgentPool) :
    ∀ m hc cls m₂ hc₂ cls₂, scalePoolsLoop pools m true hc cls = some (m₂, hc₂, cls₂) →
    cls₂ = cls := by
  induction pools with
  | nil =>
    intro m hc cls m₂ hc₂ cls₂ h
    simp only [scalePoolsLoop, Option.some.injEq] at h
    obtain ⟨-, -, rfl⟩ := h
    rfl
  | cons p₀ rest ih =>
    intro m hc cls m₂ hc₂ cls₂ h
    simp only [scalePoolsLoop, Bool.not_true, Bool.false_and, Bool.false_eq_true,
      if_false] at h
    cases hl : dlookup m p₀.name with
    | none => rw [hl] at h; cases h
    | some ns =>
      rw [hl] at h
      simp only at h
      split at h
      · exact ih _ _ _ _ _ _ h
      · exact ih _ _ _ _ _ _ h

theorem scalePoolsLoop_mono (pools : List AgentPool) :
    ∀ m d cls m₂ hc₂ cls₂, scalePoolsLoop pools m d true cls = some (m₂, hc₂, cls₂) →
    hc₂ = true := by
  induction pools with
  | nil =>
    intro m d cls m₂ hc₂ cls₂ h
    simp only [scalePoolsLoop, Option.some.injEq] at h
    obtain ⟨-, rfl, -⟩ := h
    rfl
  | cons p₀ rest ih =>
    intro m d cls m₂ hc₂ cls₂ h
    simp only [scalePoolsLoop] at h
    cases hl : dlookup m p₀.name with
    | none => rw [hl] at h; cases h
    | some ns =>
      rw [hl] at h
      simp only at h
      split at h
      · exact ih _ _ _ _ _ _ h
      · exact ih _ _ _ _ _ _ h

theorem scalePoolsLoop_changes (pools : List AgentPool) :
    ∀ m d hc cls m₂ hc₂ cls₂ (cand : AgentPool → Int), (pools.map AgentPool.name).Nodup →
    (∀ p ∈ pools, dlookup m p.name = some (cand p)) →
    (∃ p ∈ pools, min p.max_size (cand p) ≠ p.actual_capacity) →
    scalePoolsLoop pools m d hc cls = some (m₂, hc₂, cls₂) →
    hc₂ = true := by
  induction pools with
  | nil =>
    intro m d hc cls m₂ hc₂ cls₂ cand _ _ hex _
    obtain ⟨p, hp, -⟩ := hex
    cases hp
  | cons p₀ rest ih =>
    intro m d hc cls m₂ hc₂ cls₂ cand hnd hcand hex h
    simp only [List.map_cons, List.nodup_cons] at hnd
    obtain ⟨hn₁, hn₂⟩ := hnd
    simp only [scalePoolsLoop] at h
    have hl : dlookup m p₀.name = some (cand p₀) := hcand p₀ (List.mem_cons_self _ _)
    rw [hl] at h
    simp only at h
    have hcand₂ : ∀ p ∈ rest,
        dlookup (dinsert m p₀.name (min p₀.max_size (cand p₀))) p.name = some (cand p) := by
      intro p hp
      have hne : p.name ≠ p₀.name := by
        intro he
        exact hn₁ (he ▸ List.mem_map_of_mem AgentPool.name hp)
      rw [dlookup_dinsert_ne _ _ _ _ hne]
      exact hcand p (List.mem_cons_of_mem _ hp)
    by_cases hch : min p₀.max_size (cand p₀) = p₀.actual_capacity
    · rw [if_pos hch] at h
      obtain ⟨p, hp, hpne⟩ := hex
      rcases List.mem_cons.mp hp with rfl | hp₂
      · exact absurd hch hpne
      · exact ih _ _ _ _ _ _ _ cand hn₂ hcand₂ ⟨p, hp₂, hpne⟩ h
    · rw [if_neg hch] at h
      exact scalePoolsLoop_mono _ _ _ _ _ _ _ h

theorem scalePoolsLoop_reclaims_shape (pools : List AgentPool) :
    ∀ m d hc cls m₂ hc₂ cls₂, scalePoolsLoop pools m d hc cls = some (m₂, hc₂, cls₂) →
    (∀ c ∈ cls, ∃ q s, c = Call.reclaim q s) →
    ∀ c ∈ cls₂, ∃ q s, c = Call.reclaim q s := by
  induction pools with
  | nil =>
    intro m d hc cls m₂ hc₂ cls₂ h hshape
    simp only [scalePoolsLoop, Option.some.injEq] at h
    obtain ⟨-, -, rfl⟩ := h
    exact hshape
  | cons p₀ rest ih =>
    intro m d hc cls m₂ hc₂ cls₂ h hshape
    simp only [scalePoolsLoop] at h
    cases hl : dlookup m p₀.name with
    | none => rw [hl] at h; cases h
    | some ns =>
      rw [hl] at h
      simp only at h
      split at h
      · exact ih _ _ _ _ _ _ _ h hshape
      · refine ih _ _ _ _ _ _ _ h ?_
        split
        · intro c hc₃
          rcases List.mem_append.mp hc₃ with hc₄ | hc₄
          · exact hshape c hc₄
          · simp only [List.mem_singleton] at hc₄
            exact ⟨p₀.name, ns, hc₄⟩
        · exact hshape

/-! ## C1: clamping and no-op detection in `scale_pools` -/

/-- **C1.** For every pool in a reconciliation pass, `scale_pools` computes
the pool's target size as `min(max_size, candidate)`; and whenever the
clamped target equals `actual_capacity` for every pool, the pass issues no
provider call (no deploy, and no reclaim either) and returns having made no
change to the object state. -/
theorem scale_pools_clamps_and_noop (cs : ContainerServiceState) (m : PMap)
    (dry_run is_scale_up : Bool) (out : ScaleOutcome)
    (hnd : (cs.agent_pools.map AgentPool.name).Nodup)
    (hout : scale_pools cs m dry_run is_scale_up = some out) :
    (∀ p ∈ cs.agent_pools, ∀ c, dlookup m p.name = some c →
      dlookup out.sizes p.name = some (min p.max_size c)) ∧
    ((∀ p ∈ cs.agent_pools, ∀ c, dlookup m p.name = some c →
        min p.max_size c = p.actual_capacity) →
      out.calls = [] ∧ out.state = cs) := by
  unfold scale_pools at hout
  cases hl : scalePoolsLoop cs.agent_pools m dry_run false [] with
  | none => rw [hl] at hout; cases hout
  | some trip =>
    obtain ⟨m₂, hc, rcl⟩ := trip
    rw [hl] at hout
    simp only at hout
    constructor
    · intro p hp c hcp
      have hsz : out.sizes = m₂ := by
        split at hout
        · split at hout
          · cases hf : fixedDeployLoop cs.agent_pools cs m₂ with
            | none => rw [hf] at hout; cases hout
            | some pair =>
              obtain ⟨cs₂, dps⟩ := pair
              rw [hf] at hout
              simp only at hout
              injection hout with h₂
              rw [← h₂]
          · cases hd : deploy_pools cs m₂ is_scale_up with
            | none => rw [hd] at hout; cases hout
            | some pair =>
              obtain ⟨cs₂, op⟩ := pair
              rw [hd] at hout
              simp only at hout
              injection hout with h₂
              rw [← h₂]
        · injection hout with h₂
          rw [← h₂]
      rw [hsz]
      exact scalePoolsLoop_sizes _ _ _ _ _ _ _ _ hnd hl p hp c hcp
    · intro hno
      obtain ⟨rfl, rfl⟩ := scalePoolsLoop_noop _ _ _ _ _ _ _ _ hnd hno hl
      simp only [Bool.and_false, Bool.false_eq_true, if_false] at hout
      injection hout with h₂
      rw [← h₂]
      exact ⟨rfl, rfl⟩

/-- Witness for C1 at a concrete input: one pool `"A"` at capacity 2 with
`max_size` 5, requested size 2 — the pass clamps to 2, issues no call and
leaves the state untouched. -/
def csW1 : ContainerServiceState :=
  { resource_group_name := "rg", agent_pools := [⟨"A", 2, 5⟩], is_acs_engine := false,
    inst := ⟨[2], some ()⟩, desired_agent_pool_capacity := none,
    arm_template := ⟨[]⟩, arm_parameters := [] }

theorem scale_pools_clamps_and_noop_witness :
    (csW1.agent_pools.map AgentPool.name).Nodup ∧
    ∃ out, scale_pools csW1 [("A", 2)] false true = some out ∧
      ((∀ p ∈ csW1.agent_pools, ∀ c, dlookup [("A", 2)] p.name = some c →
        dlookup out.sizes p.name = some (min p.max_size c)) ∧
      ((∀ p ∈ csW1.agent_pools, ∀ c, dlookup [("A", 2)] p.name = some c →
          min p.max_size c = p.actual_capacity) →
        out.calls = [] ∧ out.state = csW1)) :=
  ⟨by decide, _, rfl,
    scale_pools_clamps_and_noop csW1 [("A", 2)] false true _ (by decide) rfl⟩

/-! ## C2: scale-down below one agent fails before any call -/

theorem scaleDownLoop_err (pools : List AgentPool) :
    ∀ trim acc, (∀ p ∈ pools, (dlookup trim p.name).isSome) →
    (∃ p ∈ pools, ∀ t, dlookup trim p.name = some t → p.actual_capacity - t ≤ 0) →
    ∃ q, scaleDownLoop pools trim acc = .error (.invalidScaleDown q) := by
  induction pools with
  | nil =>
    intro trim acc _ hex
    obtain ⟨p, hp, -⟩ := hex
    cases hp
  | cons p₀ rest ih =>
    intro trim acc h1 hex
    have hs : (dlookup trim p₀.name).isSome := h1 p₀ (List.mem_cons_self _ _)
    obtain ⟨t, hl⟩ := Option.isSome_iff_exists.mp hs
    by_cases hle : p₀.actual_capacity - t ≤ 0
    · refine ⟨p₀.name, ?_⟩
      simp only [scaleDownLoop]
      rw [hl]
      simp only [if_pos hle]
    · obtain ⟨p, hp, hprop⟩ := hex
      rcases List.mem_cons.mp hp with rfl | hp₂
      · exact absurd (hprop t hl) hle
      · obtain ⟨q, hq⟩ := ih trim (dinsert acc p₀.name (p₀.actual_capacity - t))
          (fun p hp => h1 p (List.mem_cons_of_mem _ hp)) ⟨p, hp₂, hprop⟩
        refine ⟨q, ?_⟩
        simp only [scaleDownLoop]
        rw [hl]
        simp only [if_neg hle]
        exact hq

/-- **C2.** For every trim map defined on all pools and asking some pool
down to `actual_capacity - trim ≤ 0`, `scale_down` raises the scale-down
contract violation; `scale_pools` is never reached, so no provider call is
issued. -/
theorem scale_down_contract_violation (cs : ContainerServiceState) (trim_map : PMap)
    (dry_run : Bool)
    (h1 : ∀ p ∈ cs.agent_pools, (dlookup trim_map p.name).isSome)
    (h2 : ∃ p ∈ cs.agent_pools, ∀ t, dlookup trim_map p.name = some t →
      p.actual_capacity - t ≤ 0) :
    ∃ q, scale_down cs trim_map dry_run = .error (.invalidScaleDown q) := by
  obtain ⟨q, hq⟩ := scaleDownLoop_err cs.agent_pools trim_map [] h1 h2
  refine ⟨q, ?_⟩
  unfold scale_down
  rw [hq]

/-- Witness for C2 at a concrete input: pools `"A"` (capacity 1) and `"B"`
(capacity 3) with trims 1 and 1 — pool `"A"` would drop to 0, so the pass
fails with the contract violation. -/
def csW2 : ContainerServiceState :=
  { resource_group_name := "rg", agent_pools := [⟨"A", 1, 5⟩, ⟨"B", 3, 5⟩],
    is_acs_engine := false, inst := ⟨[1], some ()⟩, desired_agent_pool_capacity := none,
    arm_template := ⟨[]⟩, arm_parameters := [] }

theorem scale_down_contract_violation_witness :
    (∀ p ∈ csW2.agent_pools, (dlookup [("A", 1), ("B", 1)] p.name).isSome) ∧
    (∃ p ∈ csW2.agent_pools, ∀ t, dlookup [("A", 1), ("B", 1)] p.name = some t →
      p.actual_capacity - t ≤ 0) ∧
    ∃ q, scale_down csW2 [("A", 1), ("B", 1)] false = .error (.invalidScaleDown q) :=
  ⟨by decide, by decide,
    scale_down_contract_violation csW2 [("A", 1), ("B", 1)] false (by decide) (by decide)⟩

/-! ## C7: dry run issues no mutating call -/

/-- **C7.** With `dry_run` set, a `scale_pools` pass issues no mutating
provider call at all — no deployment, resize, redeploy or reclaim — and
leaves the object state unchanged (the would-be targets are only computed
and reported). -/
theorem scale_pools_dry_run_silent (cs : ContainerServiceState) (m : PMap)
    (is_scale_up : Bool) (out : ScaleOutcome)
    (hout : scale_pools cs m true is_scale_up = some out) :
    out.calls = [] ∧ out.state = cs := by
  unfold scale_pools at hout
  cases hl : scalePoolsLoop cs.agent_pools m true false [] with
  | none => rw [hl] at hout; cases hout
  | some trip =>
    obtain ⟨m₂, hc, rcl⟩ := trip
    have hrcl : rcl = [] := scalePoolsLoop_dry_run _ _ _ _ _ _ _ hl
    rw [hl] at hout
    simp only [Bool.not_true, Bool.false_and, Bool.false_eq_true, if_false] at hout
    injection hout with h₂
    rw [← h₂, hrcl]
    exact ⟨rfl, rfl⟩

/-- Witness for C7 at a concrete input: a pool that would grow from 1 to 3
agents, under `dry_run` — nothing is called, nothing changes. -/
def csW7 : ContainerServiceState :=
  { resource_group_name := "rg", agent_pools := [⟨"A", 1, 5⟩], is_acs_engine := false,
    inst := ⟨[1], some ()⟩, desired_agent_pool_capacity := none,
    arm_template := ⟨[]⟩, arm_parameters := [] }

theorem scale_pools_dry_run_silent_witness :
    ∃ out, scale_pools csW7 [("A", 3)] true true = some out ∧
      out.calls = [] ∧ out.state = csW7 :=
  ⟨_, rfl, scale_pools_dry_run_silent csW7 [("A", 3)] true _ rfl⟩

/-! ## C3: the fixed-topology resize loop -/

theorem fixedDeployLoop_calls (pools : List AgentPool) :
    ∀ cs m cs₂ calls (cand : AgentPool → Int) (hd : Int) (tl : List Int),
    cs.inst.agent_pool_profiles = hd :: tl →
    (∀ p ∈ pools, dlookup m p.name = some (cand p)) →
    fixedDeployLoop pools cs m = some (cs₂, calls) →
    calls = pools.map (fun p =>
      Call.deploy (ProviderOp.createOrUpdate ⟨cand p :: tl, none⟩) m) := by
  induction pools with
  | nil =>
    intro cs m cs₂ calls cand hd tl _ _ h
    simp only [fixedDeployLoop, Option.some.injEq, Prod.mk.injEq] at h
    obtain ⟨-, rfl⟩ := h
    rfl
  | cons p₀ rest ih =>
    intro cs m cs₂ calls cand hd tl hprof hcand h
    simp only [fixedDeployLoop] at h
    have hl : dlookup m p₀.name = some (cand p₀) := hcand p₀ (List.mem_cons_self _ _)
    rw [hl] at h
    simp only [set_desired_acs_agent_pool_capacity] at h
    rw [hprof] at h
    simp only at h
    split at h
    · cases h
    · rename_i cs₃ calls₂ heq
      injection h with h₂
      obtain ⟨-, rfl⟩ := Prod.mk.injEq .. ▸ h₂
      have hrest := ih _ m cs₃ calls₂ cand (cand p₀) tl rfl
        (fun p hp => hcand p (List.mem_cons_of_mem _ hp)) heq
      simp only [List.map_cons]
      rw [hrest]

/-- **C3 (amended).** In the fixed-topology (non-acs-engine) path, when at
least one pool changes, one serialized direct-resize call is issued for
*every* pool of the cluster — not only for the pools whose clamped target
differs from their actual capacity — each carrying that pool's clamped
target as the instance's first agent-pool count, with the service-principal
field nulled out before the update, and each accompanied by the full
clamped size snapshot. -/
theorem scale_pools_fixed_resizes_every_pool (cs : ContainerServiceState) (m : PMap)
    (is_scale_up : Bool) (out : ScaleOutcome) (cand : AgentPool → Int)
    (hfix : cs.is_acs_engine = false)
    (hnd : (cs.agent_pools.map AgentPool.name).Nodup)
    (hprof : cs.inst.agent_pool_profiles ≠ [])
    (hcand : ∀ p ∈ cs.agent_pools, dlookup m p.name = some (cand p))
    (hch : ∃ p ∈ cs.agent_pools, min p.max_size (cand p) ≠ p.actual_capacity)
    (hout : scale_pools cs m false is_scale_up = some out) :
    ∃ reclaims, (∀ c ∈ reclaims, ∃ q s, c = Call.reclaim q s) ∧
      out.calls = reclaims ++ cs.agent_pools.map (fun p =>
        Call.deploy (ProviderOp.createOrUpdate
          ⟨min p.max_size (cand p) :: cs.inst.agent_pool_profiles.tail, none⟩)
          out.sizes) := by
  obtain ⟨hd, tl, hprofeq⟩ : ∃ hd tl, cs.inst.agent_pool_profiles = hd :: tl := by
    cases hpp : cs.inst.agent_pool_profiles with
    | nil => exact absurd hpp hprof
    | cons a b => exact ⟨a, b, rfl⟩
  unfold scale_pools at hout
  cases hl : scalePoolsLoop cs.agent_pools m false false [] with
  | none => rw [hl] at hout; cases hout
  | some trip =>
    obtain ⟨m₂, hc, rcl⟩ := trip
    obtain rfl : hc = true :=
      scalePoolsLoop_changes _ _ _ _ _ _ _ _ cand hnd hcand hch hl
    rw [hl, hfix] at hout
    simp only [Bool.not_false, Bool.true_and, if_true, Bool.not_true,
      Bool.false_eq_true, if_false] at hout
    cases hf : fixedDeployLoop cs.agent_pools cs m₂ with
    | none => rw [hf] at hout; cases hout
    | some pair =>
      obtain ⟨cs₃, dps⟩ := pair
      rw [hf] at hout
      simp only at hout
      injection hout with h₂
      have hm₂ : ∀ p ∈ cs.agent_pools,
          dlookup m₂ p.name = some (min p.max_size (cand p)) := fun p hp =>
        scalePoolsLoop_sizes _ _ _ _ _ _ _ _ hnd hl p hp (cand p)
          (hcand p hp)
      have hdps := fixedDeployLoop_calls _ _ _ _ _
        (fun p => min p.max_size (cand p)) hd tl hprofeq hm₂ hf
      have hshape : ∀ c ∈ rcl, ∃ q s, c = Call.reclaim q s :=
        scalePoolsLoop_reclaims_shape _ _ _ _ _ _ _ _ hl (by intro c hc₃; cases hc₃)
      refine ⟨rcl, hshape, ?_⟩
      rw [← h₂, hdps, hprofeq]
      rfl

/-- The concrete fixed-topology cluster used for C3: pool `"A"` (capacity 1)
changes, pool `"B"` (capacity 2) is already at its target. -/
def csC3 : ContainerServiceState :=
  { resource_group_name := "rg", agent_pools := [⟨"A", 1, 5⟩, ⟨"B", 2, 5⟩],
    is_acs_engine := false, inst := ⟨[1], some ()⟩, desired_agent_pool_capacity := none,
    arm_template := ⟨[]⟩, arm_parameters := [] }

/-- **C3 (counterexample).** At `csC3` with requested sizes `A = 2, B = 2`,
exactly one pool's clamped target differs from its actual capacity, yet the
pass issues *two* direct-resize calls — one of them for pool `"B"`, which
is already at its target.  This refutes "… and for no other pool". -/
theorem scale_pools_fixed_resizes_every_pool_counterexample :
    (scale_pools csC3 [("A", 2), ("B", 2)] false true).map
        (fun out => (out.calls.filter isDeployCall).length) = some 2 ∧
    (csC3.agent_pools.filter fun p =>
        min p.max_size ((dlookup [("A", 2), ("B", 2)] p.name).getD 0)
          != p.actual_capacity).length = 1 := by
  decide

/-- Witness for the amended C3 at `csC3`: both pools get one resize call
each, every call with the service principal nulled. -/
theorem scale_pools_fixed_resizes_every_pool_witness :
    (csC3.agent_pools.map AgentPool.name).Nodup ∧
    (∃ p ∈ csC3.agent_pools, min p.max_size 2 ≠ p.actual_capacity) ∧
    ∃ out, scale_pools csC3 [("A", 2), ("B", 2)] false true = some out ∧
      ∃ reclaims, (∀ c ∈ reclaims, ∃ q s, c = Call.reclaim q s) ∧
        out.calls = reclaims ++ csC3.agent_pools.map (fun p =>
          Call.deploy (ProviderOp.createOrUpdate
            ⟨min p.max_size 2 :: csC3.inst.agent_pool_profiles.tail, none⟩)
            out.sizes) :=
  ⟨by decide, by decide, _, rfl,
    scale_pools_fixed_resizes_every_pool csC3 [("A", 2), ("B", 2)] true _
      (fun _ => 2) rfl (by decide) (by decide) (by decide) (by decide) rfl⟩

/-! ## C4: `delete_node` decrements the wrong pool's snapshot entry -/

/-- The concrete cluster used for C4: pool `"A"` (capacity 2, the owner of
the node being deleted) and pool `"B"` (capacity 3, last in the pool list). -/
def csC4 : ContainerServiceState :=
  { resource_group_name := "rg", agent_pools := [⟨"A", 2, 5⟩, ⟨"B", 3, 5⟩],
    is_acs_engine := false, inst := ⟨[2], some ()⟩, desired_agent_pool_capacity := none,
    arm_template := ⟨[]⟩, arm_parameters := [] }

/-- **C4 (failing input).** Deleting a node of pool `"A"` submits a
teardown whose snapshot leaves `"A"` at its full capacity 2 and instead
decrements `"B"` — the *last* pool iterated — to 2 (from 3): the loop
variable of `for pool in self.agent_pools` shadows the `pool` parameter, so
the owning pool's entry is decremented only by coincidence, when the owner
happens to be the last pool. -/
theorem delete_node_decrements_last_pool :
    delete_node csC4 ⟨"A", 2, 5⟩ "node-1"
        = Call.deploy (ProviderOp.teardown "node-1") [("A", 2), ("B", 2)] ∧
    dlookup [("A", 2), ("B", 2)] "A" = some ((2 : Int) - 1 + 1) ∧
    dlookup [("A", 2), ("B", 2)] "B" = some ((3 : Int) - 1) := by
  decide

/-! ## C5: the node-teardown sequence -/

/-- The OS-disk VHD URI used in the C5 scenario, resolved from the
instance's metadata before any deletion. -/
def vhdUriC5 : String := "https://acct.blob.core.windows.net/vhds/osdisk.vhd"

/-- **C5 (counterexample).** For node `"pool-a-12345-vm-3"` the NIC name the
code derives is *not* `"pool-a-12345-nic-3"`: the name splits into five
hyphen-separated parts and the code composes the first four with `nic`
inserted before the fourth, yielding `"pool-a-12345-nic-vm"`.  No step of
the teardown deletes a NIC named `"pool-a-12345-nic-3"`. -/
theorem teardown_nic_name_counterexample :
    TeardownStep.deleteNIC "pool-a-12345-nic-3" ∉
      (delete_resources_for_node vhdUriC5 "pool-a-12345-vm-3").1 ∧
    (delete_resources_for_node vhdUriC5 "pool-a-12345-vm-3").1.get? 3
      = some (TeardownStep.deleteNIC "pool-a-12345-nic-vm") := by
  decide

/-- **C5 (amended).** Teardown of node `"pool-a-12345-vm-3"` resolves the
blob location from instance metadata before any delete, then deletes the
compute instance (waiting for completion), then deletes the NIC named
`"pool-a-12345-nic-vm"` derived from the node name (waiting for
completion), then deletes the blob at the pre-resolved location, in exactly
that order. -/
theorem teardown_order :
    delete_resources_for_node vhdUriC5 "pool-a-12345-vm-3" =
      ([TeardownStep.resolveBlobLocation "acct" "vhds" "osdisk.vhd",
        TeardownStep.deleteVM "pool-a-12345-vm-3",
        TeardownStep.waitForVMDeletion,
        TeardownStep.deleteNIC "pool-a-12345-nic-vm",
        TeardownStep.waitForNICDeletion,
        TeardownStep.listStorageKeys "acct",
        TeardownStep.deleteBlob "acct" "vhds" "osdisk.vhd"], true) := by
  decide

/-! ## C6: template mutation with no security-group resource -/

/-- **C6 (failing input).** On a template whose resources are a storage
account and a virtual network — no network-security-group resource at all —
`prepare_template_for_scale_up` does *not* fail: the `-1` sentinel index is
never checked, `resources.pop(-1)` silently removes the *last* resource
(the virtual network), and the security-group dependency edge is dropped
from the virtual network on the way.  The input template is thus modified
although the expected shape was not found. -/
theorem prepare_template_missing_nsg_pops_last :
    prepare_template_for_scale_up
        ⟨[⟨"Microsoft.Storage/storageAccounts", []⟩,
          ⟨vnetTypeName, [nsgDependency, "otherDependency"]⟩]⟩
      = some ⟨[⟨"Microsoft.Storage/storageAccounts", []⟩]⟩ := by
  decide

/-! ## C8: the templated-topology redeploy and its parameter set -/

theorem countKey_inj (s t : String) (h : s ++ "Count" = t ++ "Count") : s = t := by
  have hd : (s ++ "Count").data = (t ++ "Count").data := congrArg String.data h
  rw [String.data_append, String.data_append] at hd
  exact String.ext (List.append_cancel_right hd)

theorem offsetKey_inj (s t : String) (h : s ++ "Offset" = t ++ "Offset") : s = t := by
  have hd : (s ++ "Offset").data = (t ++ "Offset").data := congrArg String.data h
  rw [String.data_append, String.data_append] at hd
  exact String.ext (List.append_cancel_right hd)

theorem offsetKey_ne_countKey (s t : String) : s ++ "Offset" ≠ t ++ "Count" := by
  intro h
  have hd : ((s ++ "Offset").data).reverse.get? 1 = ((t ++ "Count").data).reverse.get? 1 := by
    rw [h]
  rw [String.data_append, String.data_append, List.reverse_append,
    List.reverse_append] at hd
  have ho : ("Offset".data).reverse = ['t', 'e', 's', 'f', 'f', 'O'] := by decide
  have hc : ("Count".data).reverse = ['t', 'n', 'u', 'o', 'C'] := by decide
  rw [ho, hc] at hd
  simp at hd

theorem writeParams_preserves (pools : List AgentPool) :
    ∀ nps params up params₂, writeParams pools nps params up = some params₂ →
    ∀ k, (∀ p ∈ pools, k ≠ p.name ++ "Count" ∧ k ≠ p.name ++ "Offset") →
    dlookup params₂ k = dlookup params k := by
  induction pools with
  | nil =>
    intro nps params up params₂ h k _
    simp only [writeParams, Option.some.injEq] at h
    rw [h]
  | cons p₀ rest ih =>
    intro nps params up params₂ h k hk
    simp only [writeParams] at h
    cases hl : dlookup nps p₀.name with
    | none => rw [hl] at h; cases h
    | some target =>
      rw [hl] at h
      simp only at h
      obtain ⟨hkc, hko⟩ := hk p₀ (List.mem_cons_self _ _)
      rw [ih _ _ _ _ h k (fun p hp => hk p (List.mem_cons_of_mem _ hp))]
      rw [dlookup_dinsert_ne _ _ _ _ hkc]
      split
      · rw [dlookup_dinsert_ne _ _ _ _ hko]
      · rfl

theorem writeParams_lookup (pools : List AgentPool) :
    ∀ nps params up params₂ (cand : AgentPool → Int),
    (pools.map AgentPool.name).Nodup →
    (∀ p ∈ pools, dlookup nps p.name = some (cand p)) →
    writeParams pools nps params up = some params₂ →
    ∀ p ∈ pools,
      dlookup params₂ (p.name ++ "Count") = some (cand p) ∧
      (up = true → p.actual_capacity < cand p →
        dlookup params₂ (p.name ++ "Offset") = some p.actual_capacity) ∧
      (¬(up = true ∧ p.actual_capacity < cand p) →
        dlookup params₂ (p.name ++ "Offset") = dlookup params (p.name ++ "Offset")) := by
  induction pools with
  | nil => intro nps params up params₂ cand _ _ _ p hp; cases hp
  | cons p₀ rest ih =>
    intro nps params up params₂ cand hnd hcand h p hp
    simp only [List.map_cons, List.nodup_cons] at hnd
    obtain ⟨hn₁, hn₂⟩ := hnd
    simp only [writeParams] at h
    have hl : dlookup nps p₀.name = some (cand p₀) := hcand p₀ (List.mem_cons_self _ _)
    rw [hl] at h
    simp only at h
    rcases List.mem_cons.mp hp with rfl | hp₂
    · -- the head pool's own keys, untouched by the later pools' writes
      have hfresh : ∀ q ∈ rest, p.name ++ "Count" ≠ q.name ++ "Count" ∧
          p.name ++ "Count" ≠ q.name ++ "Offset" := by
        intro q hq
        have hqne : q.name ≠ p.name := by
          intro he
          exact hn₁ (he ▸ List.mem_map_of_mem AgentPool.name hq)
        exact ⟨fun he => hqne (countKey_inj q.name p.name he.symm),
          fun he => offsetKey_ne_countKey q.name p.name he.symm⟩
      have hfresho : ∀ q ∈ rest, p.name ++ "Offset" ≠ q.name ++ "Count" ∧
          p.name ++ "Offset" ≠ q.name ++ "Offset" := by
        intro q hq
        have hqne : q.name ≠ p.name := by
          intro he
          exact hn₁ (he ▸ List.mem_map_of_mem AgentPool.name hq)
        exact ⟨offsetKey_ne_countKey p.name q.name,
          fun he => hqne (offsetKey_inj q.name p.name he.symm)⟩
      refine ⟨?_, ?_, ?_⟩
      · rw [writeParams_preserves rest _ _ _ _ h _
          (fun q hq => ⟨(hfresh q hq).1, (hfresh q hq).2⟩)]
        rw [dlookup_dinsert_self]
      · intro hup hlt
        rw [writeParams_preserves rest _ _ _ _ h _
          (fun q hq => ⟨(hfresho q hq).1, (hfresho q hq).2⟩)]
        rw [dlookup_dinsert_ne _ _ _ _ (offsetKey_ne_countKey p.name p.name)]
        rw [if_pos (by simp [hup, hlt])]
        rw [dlookup_dinsert_self]
      · intro hneg
        rw [writeParams_preserves rest _ _ _ _ h _
          (fun q hq => ⟨(hfresho q hq).1, (hfresho q hq).2⟩)]
        rw [dlookup_dinsert_ne _ _ _ _ (offsetKey_ne_countKey p.name p.name)]
        rw [if_neg (by simpa [not_and, Decidable.imp_iff_not_or] using
          fun hu hl₂ => hneg ⟨hu, hl₂⟩)]
    · -- a later pool: relative to the head's writes, then undo them
      have hres := ih _ _ _ _ cand hn₂
        (fun q hq => hcand q (List.mem_cons_of_mem _ hq)) h p hp₂
      have hpne : p.name ≠ p₀.name := by
        intro he
        exact hn₁ (he ▸ List.mem_map_of_mem AgentPool.name hp₂)
      refine ⟨hres.1, hres.2.1, ?_⟩
      intro hneg
      rw [hres.2.2 hneg]
      rw [dlookup_dinsert_ne _ _ _ _ (offsetKey_ne_countKey p.name p₀.name)]
      split
      · rw [dlookup_dinsert_ne _ _ _ _
          (fun he => hpne (offsetKey_inj p.name p₀.name he))]
      · rfl

/-- **C8 (amended).** In the templated (acs-engine) path, when at least one
pool changes, exactly one serialized redeploy call is issued, and its
parameter set carries every pool's target size (`<name>Count`); an offset
parameter `<name>Offset` equal to the pool's pre-change `actual_capacity`
is included on scale-up for each pool whose capacity is actually *growing*
(`actual_capacity < target`) — for any other pool the offset entry is left
exactly as it was in the stored parameters, not written. -/
theorem scale_pools_templated_single_redeploy (cs : ContainerServiceState) (m : PMap)
    (is_scale_up : Bool) (out : ScaleOutcome) (cand : AgentPool → Int)
    (heng : cs.is_acs_engine = true)
    (hnd : (cs.agent_pools.map AgentPool.name).Nodup)
    (hcand : ∀ p ∈ cs.agent_pools, dlookup m p.name = some (cand p))
    (hch : ∃ p ∈ cs.agent_pools, min p.max_size (cand p) ≠ p.actual_capacity)
    (hout : scale_pools cs m false is_scale_up = some out) :
    ∃ reclaims params template,
      (∀ c ∈ reclaims, ∃ q s, c = Call.reclaim q s) ∧
      out.calls = reclaims ++
        [Call.deploy (ProviderOp.armDeploy template params) out.sizes] ∧
      ∀ p ∈ cs.agent_pools,
        dlookup params (p.name ++ "Count") = some (min p.max_size (cand p)) ∧
        (is_scale_up = true → p.actual_capacity < min p.max_size (cand p) →
          dlookup params (p.name ++ "Offset") = some p.actual_capacity) ∧
        (¬(is_scale_up = true ∧ p.actual_capacity < min p.max_size (cand p)) →
          dlookup params (p.name ++ "Offset")
            = dlookup cs.arm_parameters (p.name ++ "Offset")) := by
  unfold scale_pools at hout
  cases hl : scalePoolsLoop cs.agent_pools m false false [] with
  | none => rw [hl] at hout; cases hout
  | some trip =>
    obtain ⟨m₂, hc, rcl⟩ := trip
    obtain rfl : hc = true :=
      scalePoolsLoop_changes _ _ _ _ _ _ _ _ cand hnd hcand hch hl
    rw [hl, heng] at hout
    simp only [Bool.not_false, Bool.true_and, if_true, Bool.not_true,
      Bool.false_eq_true, if_false] at hout
    unfold deploy_pools at hout
    cases hw : writeParams cs.agent_pools m₂ cs.arm_parameters is_scale_up with
    | none => rw [hw] at hout; cases hout
    | some params =>
      rw [hw] at hout
      simp only at hout
      cases hpt : (if is_scale_up = true then prepare_template_for_scale_up cs.arm_template
          else some cs.arm_template) with
      | none => rw [hpt] at hout; simp only at hout; cases hout
      | some template =>
        rw [hpt] at hout
        simp only at hout
        injection hout with h₂
        have hm₂ : ∀ p ∈ cs.agent_pools,
            dlookup m₂ p.name = some (min p.max_size (cand p)) := fun p hp =>
          scalePoolsLoop_sizes _ _ _ _ _ _ _ _ hnd hl p hp (cand p) (hcand p hp)
        have hshape : ∀ c ∈ rcl, ∃ q s, c = Call.reclaim q s :=
          scalePoolsLoop_reclaims_shape _ _ _ _ _ _ _ _ hl
            (by intro c hc₃; cases hc₃)
        refine ⟨rcl, params, template, hshape, by rw [← h₂], ?_⟩
        exact writeParams_lookup _ _ _ _ _ (fun p => min p.max_size (cand p))
          hnd hm₂ hw

/-- The concrete templated cluster used for C8: pool `"A"` (capacity 1)
grows to 3, pool `"B"` (capacity 2) keeps its size. -/
def csC8 : ContainerServiceState :=
  { resource_group_name := "rg", agent_pools := [⟨"A", 1, 5⟩, ⟨"B", 2, 5⟩],
    is_acs_engine := true, inst := ⟨[1], some ()⟩, desired_agent_pool_capacity := none,
    arm_template := ⟨[⟨"Microsoft.Network/networkSecurityGroups", []⟩,
      ⟨"Microsoft.Network/virtualNetworks",
        ["[concat(\x27Microsoft.Network/networkSecurityGroups/\x27, variables(\x27nsgName\x27))]"]⟩]⟩,
    arm_parameters := [] }

/-- The parameter set of the redeploy call, when the call is one. -/
def armParamsOf : Call → Option PMap
  | .deploy (.armDeploy _ ps) _ => some ps
  | _ => none

/-- **C8 (counterexample).** A scale-up pass over `csC8` issues one
redeploy whose parameter set is `AOffset = 1, ACount = 3, BCount = 2`: pool
`"B"` — unchanged, but a pool of the pass all the same — gets *no* offset
parameter, refuting "for each pool an offset parameter … is also
included". -/
theorem scale_pools_templated_offset_counterexample :
    (scale_pools csC8 [("A", 3), ("B", 2)] false true).map
        (fun out => out.calls.filterMap armParamsOf)
      = some [[("AOffset", 1), ("ACount", 3), ("BCount", 2)]] ∧
    dlookup [("AOffset", 1), ("ACount", 3), ("BCount", 2)] "BOffset" = none := by
  decide

/-- The requested sizes of the C8 witness pass, as a function of the pool. -/
def candC8 : AgentPool → Int :=
  fun p => if p.name = "A" then 3 else 2

/-- Witness for the amended C8 at `csC8`: one redeploy, Counts for both
pools, an Offset only for the growing pool `"A"`. -/
theorem scale_pools_templated_single_redeploy_witness :
    (csC8.agent_pools.map AgentPool.name).Nodup ∧
    (∃ p ∈ csC8.agent_pools, min p.max_size (candC8 p) ≠ p.actual_capacity) ∧
    ∃ out, scale_pools csC8 [("A", 3), ("B", 2)] false true = some out ∧
      ∃ reclaims params template,
        (∀ c ∈ reclaims, ∃ q s, c = Call.reclaim q s) ∧
        out.calls = reclaims ++
          [Call.deploy (ProviderOp.armDeploy template params) out.sizes] ∧
        ∀ p ∈ csC8.agent_pools,
          dlookup params (p.name ++ "Count") = some (min p.max_size (candC8 p)) ∧
          (true = true → p.actual_capacity < min p.max_size (candC8 p) →
            dlookup params (p.name ++ "Offset") = some p.actual_capacity) ∧
          (¬(true = true ∧ p.actual_capacity < min p.max_size (candC8 p)) →
            dlookup params (p.name ++ "Offset")
              = dlookup csC8.arm_parameters (p.name ++ "Offset")) :=
  ⟨by decide, by decide, _, rfl,
    scale_pools_templated_single_redeploy csC8 [("A", 3), ("B", 2)] true _ candC8
      rfl (by decide) (by decide) (by decide) rfl⟩

/-! ## C9: exponential backoff of the outer control loop -/

theorem backoffIterate_replicate (sleep : Int) (k : Nat) : ∀ b : Int,
    backoffIterate sleep b (List.replicate k false) = b * 2 ^ k := by
  induction k with
  | zero => intro b; simp [backoffIterate]
  | succ n ih =>
    intro b
    rw [List.replicate_succ]
    show backoffIterate sleep (backoffStep sleep b false).2 (List.replicate n false) = _
    rw [ih]
    simp only [backoffStep, Bool.false_eq_true, if_false]
    ring

/-- **C9.** In the outer control loop, every iteration whose scale pass
reports no scaling (no-op or failure alike) doubles the interval slept —
`k` consecutive such iterations leave the backoff at `sleep * 2^k`, with no
upper bound: it eventually exceeds any given value — while every iteration
in which scaling occurred sleeps the base `--sleep` value and resets the
backoff to it. -/
theorem outer_loop_backoff (sleep : Int) (hs : 1 ≤ sleep) :
    (∀ b : Int, backoffStep sleep b false = (b * 2, b * 2)) ∧
    (∀ b : Int, backoffStep sleep b true = (sleep, sleep)) ∧
    (∀ k : Nat, backoffIterate sleep sleep (List.replicate k false) = sleep * 2 ^ k) ∧
    (∀ bound : Int, ∃ k : Nat,
      bound < backoffIterate sleep sleep (List.replicate k false)) := by
  refine ⟨fun b => rfl, fun b => rfl,
    fun k => backoffIterate_replicate sleep k sleep, ?_⟩
  intro bound
  refine ⟨bound.toNat, ?_⟩
  rw [backoffIterate_replicate]
  have h1 : bound ≤ (bound.toNat : Int) := Int.self_le_toNat bound
  have h2 : (bound.toNat : Int) < 2 ^ bound.toNat := by
    exact_mod_cast Nat.lt_two_pow bound.toNat
  have h3 : (2 : Int) ^ bound.toNat ≤ sleep * 2 ^ bound.toNat := by
    have hp : (0 : Int) < 2 ^ bound.toNat := pow_pos (by norm_num) bound.toNat
    nlinarith
  linarith

/-- Witness for C9 at the default base interval `--sleep = 60`. -/
theorem outer_loop_backoff_witness :
    (1 : Int) ≤ 60 ∧
    ((∀ b : Int, backoffStep 60 b false = (b * 2, b * 2)) ∧
    (∀ b : Int, backoffStep 60 b true = (60, 60)) ∧
    (∀ k : Nat, backoffIterate 60 60 (List.replicate k false) = 60 * 2 ^ k) ∧
    (∀ bound : Int, ∃ k : Nat,
      bound < backoffIterate 60 60 (List.replicate k false))) :=
  ⟨by decide, outer_loop_backoff 60 (by decide)⟩

/-! ## C10: template and parameter mutations persist in the object state -/

/-- The concrete templated cluster used for C10: one pool `"A"` at
capacity 2, a template holding the security group and the virtual network,
and an empty stored parameter set. -/
def csC10 : ContainerServiceState :=
  { resource_group_name := "rg", agent_pools := [⟨"A", 2, 5⟩],
    is_acs_engine := true, inst := ⟨[2], some ()⟩, desired_agent_pool_capacity := none,
    arm_template := ⟨[⟨"Microsoft.Network/networkSecurityGroups", []⟩,
      ⟨"Microsoft.Network/virtualNetworks",
        ["[concat(\x27Microsoft.Network/networkSecurityGroups/\x27, variables(\x27nsgName\x27))]",
         "other"]⟩]⟩,
    arm_parameters := [] }

/-- **C10.** Scale-up template preprocessing and parameter writing mutate
the stored object state rather than fresh copies: after a first scale-up
pass over `csC10`, the state's template has lost the security-group
resource and its dependency edge for good, and the state's parameters
carry `AOffset`; a second, scale-down pass then redeploys with that
already-mutated template and a parameter set that still carries the first
pass's stale `AOffset` entry (only `ACount` was rewritten), instead of the
mutations having been confined to the first deployment. -/
theorem deploy_state_mutations_persist :
    ((scale_pools csC10 [("A", 3)] false true).bind fun out₁ =>
      (scale_pools out₁.state [("A", 1)] false false).map fun out₂ =>
        (out₁.state.arm_template, dlookup out₁.state.arm_parameters "AOffset",
         out₂.calls))
    = some (⟨[⟨"Microsoft.Network/virtualNetworks", ["other"]⟩]⟩, some 2,
        [Call.deploy (ProviderOp.armDeploy
          ⟨[⟨"Microsoft.Network/virtualNetworks", ["other"]⟩]⟩
          [("AOffset", 2), ("ACount", 1)]) [("A", 1)]]) := by
  decide
